import Mathlib

/-!
# portable_concurrency: the promise write end

A shallow embedding of `portable_concurrency/bits/promise.h`.

The promise handle is the three-way variant `state_` of `promise_common`
(`monostate`, `std::shared_ptr`, `std::weak_ptr`).  Reference counting is made
explicit: a world is a list of control blocks, each with its strong count, the
managed `shared_state` object and the deleter installed by the constructor.
Every copy and destruction of a `std::shared_ptr` in the source appears as an
`acquire` / `release` step here.
-/

namespace portable_concurrency

/-! ## Errors and the shared state -/

/-- Error codes carried by the `future_error` exceptions the handle raises. -/
inductive future_errc where
  | broken_promise
  | future_already_retrieved
  | promise_already_satisfied
  | no_state
  deriving DecidableEq, Repr

/-- An `std::exception_ptr`: either a library `future_error` or some user exception. -/
inductive exception_ptr where
  | future_error (c : future_errc)
  | user (n : Nat)
  deriving DecidableEq, Repr

/-- Modelled from the spec: the `result` slot of the shared completion state
(`shared_state.h` is not part of the sources): unset, a value, or an error. -/
inductive storage (T : Type) where
  | unset
  | value (v : T)
  | error (e : exception_ptr)
  deriving DecidableEq, Repr

/-- Modelled from the spec: the shared completion state of `shared_state.h`
(absent from the sources). It holds the result, the queue of registered
continuations (as identifiers), the identifiers already invoked, in order, and
the `executed` flag queried by `continuations().executed()`. -/
structure shared_state (T : Type) where
  result : storage T
  continuations : List Nat
  invoked : List Nat
  executed : Bool
  deriving DecidableEq, Repr

/-- Modelled from the spec: a newly constructed `shared_state<T>` (absent from
the sources): no result, no continuation, nothing executed. -/
def shared_state.fresh (T : Type) : shared_state T :=
  { result := storage.unset, continuations := [], invoked := [], executed := false }

/-- Modelled from the spec: result delivery shared by `emplace` and
`set_exception` of `shared_state.h` (absent from the sources). The result must
be unset, otherwise the call is rejected with `promise_already_satisfied`; on
success the result is written, every queued continuation is invoked in
registration order and `executed` becomes true. -/
def shared_state.deliver {T : Type} (s : shared_state T) (r : storage T) :
    Except future_errc (shared_state T) :=
  match s.result with
  | storage.unset =>
      Except.ok { result := r, continuations := [],
                  invoked := s.invoked ++ s.continuations, executed := true }
  | _ => Except.error future_errc.promise_already_satisfied

/-- Modelled from the spec: `shared_state<T>::emplace(val)` (absent from the
sources) writes a value result. -/
def shared_state.emplace {T : Type} (s : shared_state T) (val : T) :
    Except future_errc (shared_state T) :=
  s.deliver (storage.value val)

/-- Modelled from the spec: `shared_state<T>::set_exception(error)` (absent from
the sources) writes an error result. -/
def shared_state.set_exception {T : Type} (s : shared_state T) (error : exception_ptr) :
    Except future_errc (shared_state T) :=
  s.deliver (storage.error error)

/-- Modelled from the spec: `shared_state<T>::abandon()` (absent from the
sources). If nothing was executed and the result is unset, a broken-promise
error is delivered as by `set_exception`; otherwise nothing happens. The state
object is built by a plain `new shared_state<T>` also in the canceler
constructor, so it carries no hook: the hook lives in the deleter only. -/
def shared_state.abandon {T : Type} (s : shared_state T) : shared_state T :=
  match s.executed, s.result with
  | false, storage.unset =>
      { result := storage.error (exception_ptr.future_error future_errc.broken_promise),
        continuations := [],
        invoked := s.invoked ++ s.continuations, executed := true }
  | _, _ => s

/-! ## Reference-counted ownership -/

/-- The control block of a `std::shared_ptr<shared_state<T>>`: the number of
strong owners, the managed object (its last contents once destroyed) and the
deleter: `none` for the default one, `some f` for the lambda of the canceler
constructor capturing hook `f`. -/
structure control_block (T : Type) where
  strong : Nat
  object : shared_state T
  deleter : Option Nat
  deriving DecidableEq, Repr

/-- The memory the handles live in: the control blocks allocated so far and
the log of cancellation hooks called, oldest first. -/
structure World (T : Type) where
  heap : List (control_block T)
  cancelled : List Nat
  deriving DecidableEq, Repr

/-- A `std::shared_ptr`: `none` is the null pointer. -/
abbrev shared_ptr := Option Nat

/-- A `std::weak_ptr`: `none` is the empty weak pointer. -/
abbrev weak_ptr := Option Nat

/-- A `future<T>` built from a shared pointer to the state. -/
structure future where
  state : shared_ptr
  deriving DecidableEq, Repr

/-- The control block at an address, if allocated. -/
def World.block {T : Type} (w : World T) (r : Nat) : Option (control_block T) :=
  w.heap[r]?

/-- Overwrite the control block at an address. -/
def World.put {T : Type} (w : World T) (r : Nat) (b : control_block T) : World T :=
  { heap := w.heap.set r b, cancelled := w.cancelled }

/-- Value of `use_count()` for a pointer: the strong owners of what it designates. -/
def World.use_count {T : Type} (w : World T) (p : Option Nat) : Nat :=
  match p with
  | none => 0
  | some r =>
    match w.block r with
    | none => 0
    | some b => b.strong

/-- Value of `std::weak_ptr::expired()`. -/
def World.expired {T : Type} (w : World T) (p : weak_ptr) : Bool :=
  decide (w.use_count p = 0)

/-- Copying a `std::shared_ptr`: one more strong owner. -/
def World.acquire {T : Type} (w : World T) (p : shared_ptr) : World T :=
  match p with
  | none => w
  | some r =>
    match w.block r with
    | none => w
    | some b => w.put r { b with strong := b.strong + 1 }

/-- Running the deleter of a block whose last strong owner is gone. The default
deleter destroys the object. The deleter of the canceler constructor (source
lines 30 to 34) calls the hook when `ptr->continuations().executed()` is false,
and destroys the object. -/
def World.dispose {T : Type} (w : World T) (r : Nat) (b : control_block T) : World T :=
  let log :=
    match b.deleter with
    | some f => if b.object.executed = false then w.cancelled ++ [f] else w.cancelled
    | none => w.cancelled
  { heap := w.heap.set r { b with strong := 0 }, cancelled := log }

/-- Destroying a `std::shared_ptr`: one strong owner less, and the deleter runs
when the count reaches zero. -/
def World.release {T : Type} (w : World T) (p : shared_ptr) : World T :=
  match p with
  | none => w
  | some r =>
    match w.block r with
    | none => w
    | some b =>
      if b.strong - 1 = 0 then w.dispose r b
      else w.put r { b with strong := b.strong - 1 }

/-- Value of `std::weak_ptr::lock()`: a new strong owner when the object is
still alive, the null pointer otherwise. -/
def World.lock {T : Type} (w : World T) (p : weak_ptr) : shared_ptr × World T :=
  if w.expired p then (none, w) else (p, w.acquire p)

/-- A member call `state->m(...)` through a non-null pointer, where `m` may
throw: the object is replaced by the outcome of `m`, or the exception leaves. -/
def World.call {T : Type} (w : World T) (r : Nat)
    (m : shared_state T → Except future_errc (shared_state T)) :
    Except future_errc Unit × World T :=
  match w.block r with
  | none => (Except.ok (), w)
  | some b =>
    match m b.object with
    | Except.error e => (Except.error e, w)
    | Except.ok s => (Except.ok (), w.put r { b with object := s })

/-! ## `promise_common` -/

/-- The member `state_` of `promise_common`:
`either<monostate, std::shared_ptr<...>, std::weak_ptr<...>>`. -/
inductive promise_common where
  | monostate
  | shared (val : shared_ptr)
  | weak (val : weak_ptr)
  deriving DecidableEq, Repr

/-- The index `state_.state()` of the active alternative. -/
def promise_common.state (p : promise_common) : Nat :=
  match p with
  | promise_common.monostate => 0
  | promise_common.shared _ => 1
  | promise_common.weak _ => 2

/-- Constructor `promise_common()`: `std::make_shared<shared_state<T>>()` in
alternative 1. -/
def promise_common.create {T : Type} (w : World T) : promise_common × World T :=
  (promise_common.shared (some w.heap.length),
   { heap := w.heap ++ [{ strong := 1, object := shared_state.fresh T, deleter := none }],
     cancelled := w.cancelled })

/-- Constructor `promise_common(const Alloc&)`: as the default one, the storage
coming from the allocator. -/
def promise_common.create_allocated {T : Type} (w : World T) : promise_common × World T :=
  promise_common.create w

/-- Constructor `promise_common(canceler_arg_t, F&& f)`: a `new shared_state<T>`
owned through a shared pointer whose deleter captures `f`. -/
def promise_common.create_canceler {T : Type} (f : Nat) (w : World T) :
    promise_common × World T :=
  (promise_common.shared (some w.heap.length),
   { heap := w.heap ++ [{ strong := 1, object := shared_state.fresh T, deleter := some f }],
     cancelled := w.cancelled })

/-- Constructor `promise_common(std::weak_ptr<shared_state<T>>&&)`: alternative 2. -/
def promise_common.create_weak {T : Type} (state : weak_ptr) (w : World T) :
    promise_common × World T :=
  (promise_common.weak state, w)

/-- Destruction of the active alternative of `state_`. -/
def promise_common.reset {T : Type} (p : promise_common) (w : World T) : World T :=
  match p with
  | promise_common.monostate => w
  | promise_common.shared val => w.release val
  | promise_common.weak _ => w

/-- Method `promise_common::get_state()`. -/
def promise_common.get_state {T : Type} (p : promise_common) (w : World T) :
    Except future_errc shared_ptr × World T :=
  match p with
  | promise_common.shared val => (Except.ok val, w.acquire val)
  | promise_common.weak val =>
    let r := w.lock val
    (Except.ok r.1, r.2)
  | promise_common.monostate => (Except.error future_errc.no_state, w)

/-- Method `promise_common::abandon()`. -/
def promise_common.abandon {T : Type} (p : promise_common) (w : World T) : World T :=
  match p with
  | promise_common.weak wstate =>
    let l := w.lock wstate
    match l.1 with
    | some r => (l.2.call r (fun s => Except.ok s.abandon)).2.release (some r)
    | none => l.2
  | promise_common.shared _ => w
  | promise_common.monostate => w

/-- Destructor `~promise_common()`: `abandon()`, then the member `state_` goes. -/
def promise_common.destroy {T : Type} (p : promise_common) (w : World T) : World T :=
  p.reset (p.abandon w)

/-- Method `promise_common::get_future()`: the mode test, the local copy
`state`, the switch of `state_` to alternative 2 (which destroys the pointer held
so far), and the returned future, a copy of `state` made before the local goes. -/
def promise_common.get_future {T : Type} (p : promise_common) (w : World T) :
    Except future_errc future × promise_common × World T :=
  if p.state = 2 then (Except.error future_errc.future_already_retrieved, p, w)
  else
    match p.get_state w with
    | (Except.error e, w1) => (Except.error e, p, w1)
    | (Except.ok state, w1) =>
      (Except.ok { state := state }, promise_common.weak state,
       ((p.reset w1).acquire state).release state)

/-- Method `promise_common::set_exception(error)`. -/
def promise_common.set_exception {T : Type} (p : promise_common) (error : exception_ptr)
    (w : World T) : Except future_errc Unit × promise_common × World T :=
  match p.get_state w with
  | (Except.error e, w1) => (Except.error e, p, w1)
  | (Except.ok state, w1) =>
    match state with
    | some r =>
      let c := w1.call r (fun s => s.set_exception error)
      (c.1, p, c.2.release state)
    | none => (Except.ok (), p, w1.release state)

/-- Method `promise_common::is_awaiten() const`. -/
def promise_common.is_awaiten {T : Type} (p : promise_common) (w : World T) :
    Except future_errc Bool :=
  match p with
  | promise_common.shared _ => Except.ok true
  | promise_common.weak val => Except.ok (!w.expired val)
  | promise_common.monostate => Except.error future_errc.no_state

/-! ## `promise<T>` -/

/-- Method `promise<T>::set_value(val)`. -/
def promise.set_value {T : Type} (common_ : promise_common) (val : T) (w : World T) :
    Except future_errc Unit × promise_common × World T :=
  match common_.get_state w with
  | (Except.error e, w1) => (Except.error e, common_, w1)
  | (Except.ok state, w1) =>
    match state with
    | some r =>
      let c := w1.call r (fun s => s.emplace val)
      (c.1, common_, c.2.release state)
    | none => (Except.ok (), common_, w1.release state)

/-- Method `promise<T>::get_future()`. -/
def promise.get_future {T : Type} (common_ : promise_common) (w : World T) :
    Except future_errc future × promise_common × World T :=
  common_.get_future w

/-- Method `promise<T>::set_exception(error)`. -/
def promise.set_exception {T : Type} (common_ : promise_common) (error : exception_ptr)
    (w : World T) : Except future_errc Unit × promise_common × World T :=
  common_.set_exception error w

/-- Method `promise<T>::is_awaiten() const`. -/
def promise.is_awaiten {T : Type} (common_ : promise_common) (w : World T) :
    Except future_errc Bool :=
  common_.is_awaiten w

/-- Destructor `~promise()`: the member `common_` is destroyed. -/
def promise.destroy {T : Type} (common_ : promise_common) (w : World T) : World T :=
  common_.destroy w

/-- Destruction of a `future<T>`: its shared pointer is released. -/
def future.destroy {T : Type} (f : future) (w : World T) : World T :=
  w.release f.state

/-! ## Observations and call sequences -/

/-- The pointer a handle holds, whatever its mode. -/
def promise_common.pointer (p : promise_common) : Option Nat :=
  match p with
  | promise_common.monostate => none
  | promise_common.shared val => val
  | promise_common.weak val => val

/-- The state object a pointer designates. -/
def World.peek {T : Type} (w : World T) (p : Option Nat) : Option (shared_state T) :=
  match p with
  | none => none
  | some r => (w.block r).map (fun b => b.object)

/-- What a reader of the future finds in its state. -/
def future.result {T : Type} (f : future) (w : World T) : Option (storage T) :=
  (w.peek f.state).map (fun s => s.result)

/-- The public calls on a promise that is not being moved or destroyed. -/
inductive call (T : Type) where
  | get_future
  | set_value (val : T)
  | set_exception (error : exception_ptr)
  | is_awaiten

/-- What a call hands back to its caller. -/
inductive outcome where
  | future (f : future)
  | done
  | answer (b : Bool)
  | thrown (e : future_errc)
  deriving DecidableEq, Repr

/-- One public call on the handle. -/
def promise.step {T : Type} (c : call T) (common_ : promise_common) (w : World T) :
    outcome × promise_common × World T :=
  match c with
  | call.get_future =>
    match promise.get_future common_ w with
    | (Except.ok f, p, w1) => (outcome.future f, p, w1)
    | (Except.error e, p, w1) => (outcome.thrown e, p, w1)
  | call.set_value val =>
    match promise.set_value common_ val w with
    | (Except.ok _, p, w1) => (outcome.done, p, w1)
    | (Except.error e, p, w1) => (outcome.thrown e, p, w1)
  | call.set_exception error =>
    match promise.set_exception common_ error w with
    | (Except.ok _, p, w1) => (outcome.done, p, w1)
    | (Except.error e, p, w1) => (outcome.thrown e, p, w1)
  | call.is_awaiten =>
    match promise.is_awaiten common_ w with
    | Except.ok b => (outcome.answer b, common_, w)
    | Except.error e => (outcome.thrown e, common_, w)

/-- A sequence of public calls on the handle, with the outcomes in call order. -/
def promise.run {T : Type} (cs : List (call T)) (common_ : promise_common) (w : World T) :
    List outcome × promise_common × World T :=
  match cs with
  | [] => ([], common_, w)
  | c :: rest =>
    let r := promise.step c common_ w
    let t := promise.run rest r.2.1 r.2.2
    (r.1 :: t.1, t.2.1, t.2.2)

/-- Two `get_future()` calls in a row on the same handle: what each returns. -/
def promise.get_future_twice {T : Type} (common_ : promise_common) (w : World T) :
    Except future_errc future × Except future_errc future :=
  let first := promise.get_future common_ w
  let second := promise.get_future first.2.1 first.2.2
  (first.1, second.1)

/-- A world with no state allocated and no hook called. -/
def World.empty (T : Type) : World T :=
  { heap := [], cancelled := [] }

/-- Client scenario: `set_value(v)`, then `get_future()`, then a look at what
the future reads (nothing if one of the two calls failed). -/
def promise.set_then_get {T : Type} (made : promise_common × World T) (v : T) :
    Option (storage T) :=
  let s := promise.set_value made.1 v made.2
  let g := promise.get_future s.2.1 s.2.2
  match s.1, g.1 with
  | Except.ok _, Except.ok F => F.result g.2.2
  | _, _ => none

/-- Client scenario: `get_future()`, then `set_value(v)` while the future is
alive, then a look at what the future reads. -/
def promise.get_then_set {T : Type} (made : promise_common × World T) (v : T) :
    Option (storage T) :=
  let g := promise.get_future made.1 made.2
  let s := promise.set_value g.2.1 v g.2.2
  match g.1, s.1 with
  | Except.ok F, Except.ok _ => F.result s.2.2
  | _, _ => none

/-- Client scenario: `get_future()`, then the promise is destroyed while the
future lives. Returns what `get_future()` returned and the world afterwards. -/
def promise.retrieve_then_drop {T : Type} (made : promise_common × World T) :
    Except future_errc future × World T :=
  let g := promise.get_future made.1 made.2
  (g.1, promise.destroy g.2.1 g.2.2)

/-- Client scenario: as `retrieve_then_drop`, and the future is destroyed last. -/
def promise.retrieve_drop_release {T : Type} (made : promise_common × World T) : World T :=
  let d := promise.retrieve_then_drop made
  match d.1 with
  | Except.ok F => F.destroy d.2
  | Except.error _ => d.2

/-- Client scenario: `get_future()`, the future is destroyed first, the promise
after it. -/
def promise.retrieve_release_drop {T : Type} (made : promise_common × World T) : World T :=
  let g := promise.get_future made.1 made.2
  match g.1 with
  | Except.ok F => promise.destroy g.2.1 (F.destroy g.2.2)
  | Except.error _ => promise.destroy g.2.1 g.2.2

/-- No future can be obtained from the handle: `get_future()` would not succeed. -/
def promise.no_future_obtainable {T : Type} (common_ : promise_common) (w : World T) : Prop :=
  ∀ F, (promise.get_future common_ w).1 ≠ Except.ok F

/-- The state the handle points to is held by no strong reference. -/
def promise.state_unreachable {T : Type} (common_ : promise_common) (w : World T) : Prop :=
  w.use_count common_.pointer = 0

/-! ## Moves -/

/-- Modelled from the spec: what a move leaves in the source variant (`either.h`
is not part of the sources). A moved-from handle has no backing state: it is
in `monostate`. -/
def promise_common.moved_from : promise_common :=
  promise_common.monostate

/-- Move constructor `promise_common(promise_common&&) = default`: the new
handle takes the alternative of `rhs`. Returns the new handle and `rhs`. -/
def promise_common.move_construct (rhs : promise_common) : promise_common × promise_common :=
  (rhs, promise_common.moved_from)

/-- Move assignment `operator=(promise_common&& rhs)`: `abandon()`, then
`state_ = std::move(rhs.state_)`, which destroys the alternative held so far and
takes over the one of `rhs`. Returns the assigned handle, `rhs` and the world. -/
def promise_common.move_assign {T : Type} (p rhs : promise_common) (w : World T) :
    promise_common × promise_common × World T :=
  let w1 := p.abandon w
  (rhs, promise_common.moved_from, p.reset w1)

/-- Move assignment `promise<T>::operator=(promise&&) = default`. -/
def promise.move_assign {T : Type} (common_ rhs : promise_common) (w : World T) :
    promise_common × promise_common × World T :=
  common_.move_assign rhs w

/-- Client scenario: `get_future()`, `set_value(v)`, the promise is destroyed,
the future is destroyed last. -/
def promise.fulfil_drop_release {T : Type} (made : promise_common × World T) (v : T) :
    World T :=
  let g := promise.get_future made.1 made.2
  let s := promise.set_value g.2.1 v g.2.2
  let w1 := promise.destroy s.2.1 s.2.2
  match g.1 with
  | Except.ok F => F.destroy w1
  | Except.error _ => w1

/-- Client scenario: `get_future()`, `set_exception(e)`, the promise is
destroyed, the future is destroyed last. -/
def promise.fail_drop_release {T : Type} (made : promise_common × World T)
    (e : exception_ptr) : World T :=
  let g := promise.get_future made.1 made.2
  let s := promise.set_exception g.2.1 e g.2.2
  let w1 := promise.destroy s.2.1 s.2.2
  match g.1 with
  | Except.ok F => F.destroy w1
  | Except.error _ => w1

/-- Client scenario: `set_value(v)` with no future retrieved, then the promise
is destroyed. -/
def promise.fulfil_drop {T : Type} (made : promise_common × World T) (v : T) : World T :=
  let s := promise.set_value made.1 v made.2
  promise.destroy s.2.1 s.2.2

/-! ## Ownership lemmas -/

theorem set_same {α : Type} (l : List α) (r : Nat) (a : α) (h : l[r]? = some a) :
    l.set r a = l := by
  induction l generalizing r with
  | nil => rfl
  | cons x xs ih =>
    cases r with
    | zero => simp at h; simp [h]
    | succ n => simp at h; simp [ih n h]

theorem block_put_same {T : Type} (w : World T) (r : Nat) (b c : control_block T)
    (h : w.block r = some b) : (w.put r c).block r = some c := by
  unfold World.block at *
  have hlt : r < w.heap.length := by
    rcases List.getElem?_eq_some.mp h with ⟨hl, _⟩
    exact hl
  simp [World.put, List.getElem?_set_self hlt]

theorem put_put {T : Type} (w : World T) (r : Nat) (b c : control_block T) :
    (w.put r b).put r c = w.put r c := by
  simp [World.put, List.set_set]

theorem put_same {T : Type} (w : World T) (r : Nat) (b : control_block T)
    (h : w.block r = some b) : w.put r b = w := by
  unfold World.block at h
  cases w with
  | mk heap cancelled => simp [World.put] at *; exact set_same heap r b h

/-- A copy of a shared pointer that is destroyed again leaves everything as it
was, provided the pointer designates a block that is owned. -/
theorem release_acquire {T : Type} (w : World T) (r : Nat) (b : control_block T)
    (h : w.block r = some b) (hs : 1 ≤ b.strong) :
    (w.acquire (some r)).release (some r) = w := by
  have hne : ¬ (b.strong = 0) := by omega
  simp [World.acquire, World.release, h, block_put_same w r b _ h, put_put, hne]
  exact put_same w r b h

/-- An owned pointer is non-null and designates a block with a positive count. -/
theorem owned_block {T : Type} (w : World T) (val : Option Nat) (h : 1 ≤ w.use_count val) :
    ∃ r b, val = some r ∧ w.block r = some b ∧ 1 ≤ b.strong := by
  cases val with
  | none => simp [World.use_count] at h
  | some r =>
    cases hb : w.block r with
    | none => simp [World.use_count, hb] at h
    | some b =>
      refine ⟨r, b, rfl, hb, ?_⟩
      simpa [World.use_count, hb] using h

theorem use_count_of_block {T : Type} (w : World T) (r : Nat) (b : control_block T)
    (h : w.block r = some b) : w.use_count (some r) = b.strong := by
  simp [World.use_count, h]

/-- In alternative 1 with an owned pointer, `get_future()` hands the strong
reference over to the future and leaves the world as it was. -/
theorem get_future_shared {T : Type} (w : World T) (val : shared_ptr)
    (h : 1 ≤ w.use_count val) :
    promise_common.get_future (promise_common.shared val) w
      = (Except.ok { state := val }, promise_common.weak val, w) := by
  obtain ⟨r, b, rfl, hb, hs⟩ := owned_block w val h
  simp [promise_common.get_future, promise_common.state, promise_common.get_state,
    promise_common.reset, release_acquire w r b hb hs]

theorem get_future_weak {T : Type} (w : World T) (val : weak_ptr) :
    promise_common.get_future (promise_common.weak val) w
      = (Except.error future_errc.future_already_retrieved, promise_common.weak val, w) := by
  simp [promise_common.get_future, promise_common.state]

theorem get_future_monostate {T : Type} (w : World T) :
    promise_common.get_future promise_common.monostate w
      = (Except.error future_errc.no_state, promise_common.monostate, w) := by
  simp [promise_common.get_future, promise_common.state, promise_common.get_state]

theorem expired_of_block {T : Type} (w : World T) (r : Nat) (b : control_block T)
    (h : w.block r = some b) (hs : 1 ≤ b.strong) : w.expired (some r) = false := by
  have hne : ¬ (b.strong = 0) := by omega
  simp [World.expired, World.use_count, h, hne]

theorem lock_alive {T : Type} (w : World T) (r : Nat) (b : control_block T)
    (h : w.block r = some b) (hs : 1 ≤ b.strong) :
    w.lock (some r) = (some r, w.acquire (some r)) := by
  simp [World.lock, expired_of_block w r b h hs]

theorem lock_expired {T : Type} (w : World T) (val : weak_ptr) (h : w.expired val = true) :
    w.lock val = (none, w) := by
  simp [World.lock, h]

/-- A member call made through a temporary strong reference to an owned block:
the count is back where it was, and only the object may have changed. -/
theorem call_under_copy {T : Type} (w : World T) (r : Nat) (b : control_block T)
    (m : shared_state T → Except future_errc (shared_state T))
    (h : w.block r = some b) (hs : 1 ≤ b.strong) :
    (((w.acquire (some r)).call r m).1, ((w.acquire (some r)).call r m).2.release (some r))
      = match m b.object with
        | Except.error e => (Except.error e, w)
        | Except.ok s => (Except.ok (), w.put r { b with object := s }) := by
  have hne : ¬ (b.strong = 0) := by omega
  have hrel := release_acquire w r b h hs
  cases hm : m b.object with
  | error e =>
    have hc : (w.acquire (some r)).call r m = (Except.error e, w.acquire (some r)) := by
      simp [World.acquire, World.call, h, block_put_same w r b _ h, hm]
    rw [hc]
    simp [hrel]
  | ok s =>
    simp [World.acquire, World.call, World.release, h, block_put_same w r b _ h, hm,
      put_put, hne]

/-- Under a temporary strong reference, both fulfilment calls reach the state
of a handle whose pointer designates an owned block. -/
theorem get_state_reachable {T : Type} (w : World T) (p : promise_common) (r : Nat)
    (b : control_block T) (hp : p = promise_common.shared (some r) ∨ p = promise_common.weak (some r))
    (h : w.block r = some b) (hs : 1 ≤ b.strong) :
    p.get_state w = (Except.ok (some r), w.acquire (some r)) := by
  rcases hp with rfl | rfl
  · simp [promise_common.get_state]
  · simp [promise_common.get_state, lock_alive w r b h hs]

theorem set_value_reachable {T : Type} (w : World T) (p : promise_common) (r : Nat)
    (b : control_block T) (val : T)
    (hp : p = promise_common.shared (some r) ∨ p = promise_common.weak (some r))
    (h : w.block r = some b) (hs : 1 ≤ b.strong) :
    promise.set_value p val w
      = match b.object.emplace val with
        | Except.error e => (Except.error e, p, w)
        | Except.ok s => (Except.ok (), p, w.put r { b with object := s }) := by
  have hc := call_under_copy w r b (fun s => s.emplace val) h hs
  simp only [promise.set_value, get_state_reachable w p r b hp h hs]
  cases hm : b.object.emplace val with
  | error e =>
    simp only [hm] at hc
    simp
    exact Prod.ext_iff.mp hc
  | ok s =>
    simp only [hm] at hc
    simp
    exact Prod.ext_iff.mp hc

theorem set_exception_reachable {T : Type} (w : World T) (p : promise_common) (r : Nat)
    (b : control_block T) (error : exception_ptr)
    (hp : p = promise_common.shared (some r) ∨ p = promise_common.weak (some r))
    (h : w.block r = some b) (hs : 1 ≤ b.strong) :
    promise_common.set_exception p error w
      = match b.object.set_exception error with
        | Except.error e => (Except.error e, p, w)
        | Except.ok s => (Except.ok (), p, w.put r { b with object := s }) := by
  have hc := call_under_copy w r b (fun s => s.set_exception error) h hs
  simp only [promise_common.set_exception, get_state_reachable w p r b hp h hs]
  cases hm : b.object.set_exception error with
  | error e =>
    simp only [hm] at hc
    simp
    exact Prod.ext_iff.mp hc
  | ok s =>
    simp only [hm] at hc
    simp
    exact Prod.ext_iff.mp hc

theorem set_value_expired {T : Type} (w : World T) (gone : weak_ptr) (val : T)
    (h : w.expired gone = true) :
    promise.set_value (promise_common.weak gone) val w
      = (Except.ok (), promise_common.weak gone, w) := by
  simp [promise.set_value, promise_common.get_state, lock_expired w gone h, World.release]

theorem set_exception_expired {T : Type} (w : World T) (gone : weak_ptr) (error : exception_ptr)
    (h : w.expired gone = true) :
    promise_common.set_exception (promise_common.weak gone) error w
      = (Except.ok (), promise_common.weak gone, w) := by
  simp [promise_common.set_exception, promise_common.get_state, lock_expired w gone h,
    World.release]

/-- Destroying a handle in alternative 2 whose state is alive runs the state's
`abandon()` and nothing else. -/
theorem abandon_weak_alive {T : Type} (w : World T) (r : Nat) (b : control_block T)
    (h : w.block r = some b) (hs : 1 ≤ b.strong) :
    promise_common.abandon (promise_common.weak (some r)) w
      = w.put r { b with object := b.object.abandon } := by
  have hc := call_under_copy w r b (fun s => Except.ok s.abandon) h hs
  simp only [promise_common.abandon, lock_alive w r b h hs]
  simpa using (Prod.ext_iff.mp hc).2

theorem block_create {T : Type} (w : World T) (d : Option Nat) :
    World.block { heap := w.heap ++ [{ strong := 1, object := shared_state.fresh T, deleter := d }],
                  cancelled := w.cancelled } w.heap.length
      = some { strong := 1, object := shared_state.fresh T, deleter := d } := by
  simp [World.block]

theorem block_create_any {T : Type} (w : World T) (b : control_block T) :
    World.block { heap := w.heap ++ [b], cancelled := w.cancelled } w.heap.length = some b := by
  simp [World.block]

theorem put_create {T : Type} (w : World T) (b c : control_block T) :
    World.put { heap := w.heap ++ [b], cancelled := w.cancelled } w.heap.length c
      = { heap := w.heap ++ [c], cancelled := w.cancelled } := by
  simp [World.put]

/-! ## Retrieval of the future -/

/-- C1, as the code has it: two `get_future()` calls in a row are decided by the
mode. In alternative 1 (every handle made by the default, allocator or canceler
constructor) the first call returns a future and the second fails with
`future_already_retrieved`; a handle born from a weak pointer fails both times
with `future_already_retrieved`, and an empty one both times with `no_state`. -/
theorem get_future_twice_by_mode {T : Type} (w : World T) (p : promise_common) (f : Nat)
    (state : weak_ptr) :
    (promise.get_future_twice p w =
      match p with
      | promise_common.shared val =>
          (Except.ok { state := val }, Except.error future_errc.future_already_retrieved)
      | promise_common.weak _ =>
          (Except.error future_errc.future_already_retrieved,
           Except.error future_errc.future_already_retrieved)
      | promise_common.monostate =>
          (Except.error future_errc.no_state, Except.error future_errc.no_state))
    ∧ promise.get_future_twice (promise_common.create w).1 (promise_common.create w).2
        = (Except.ok { state := some w.heap.length },
           Except.error future_errc.future_already_retrieved)
    ∧ promise.get_future_twice (promise_common.create_allocated w).1
          (promise_common.create_allocated w).2
        = (Except.ok { state := some w.heap.length },
           Except.error future_errc.future_already_retrieved)
    ∧ promise.get_future_twice (promise_common.create_canceler f w).1
          (promise_common.create_canceler f w).2
        = (Except.ok { state := some w.heap.length },
           Except.error future_errc.future_already_retrieved)
    ∧ promise.get_future_twice (promise_common.create_weak state w).1
          (promise_common.create_weak state w).2
        = (Except.error future_errc.future_already_retrieved,
           Except.error future_errc.future_already_retrieved) := by
  have key : ∀ (u : World T) (val : shared_ptr),
      promise.get_future_twice (promise_common.shared val) u
        = (Except.ok { state := val }, Except.error future_errc.future_already_retrieved) := by
    intro u val
    simp [promise.get_future_twice, promise.get_future, promise_common.get_future,
      promise_common.state, promise_common.get_state]
  refine ⟨?_, key _ _, key _ _, key _ _, ?_⟩
  · cases p with
    | monostate =>
      simp [promise.get_future_twice, promise.get_future, get_future_monostate]
    | shared val => exact key w val
    | weak val =>
      simp [promise.get_future_twice, promise.get_future, get_future_weak]
  · simp [promise.get_future_twice, promise.get_future, promise_common.create_weak,
      get_future_weak]

/-- C1, refuted as stated: a state is owned elsewhere and a promise is built
from a weak pointer to it; its very first `get_future()` already fails with
`future_already_retrieved`, so the two calls succeed zero times. -/
theorem get_future_twice_weak_born :
    promise.get_future_twice
        (promise_common.create_weak (some 0) (promise_common.create (World.empty Nat)).2).1
        (promise_common.create_weak (some 0) (promise_common.create (World.empty Nat)).2).2
      = (Except.error future_errc.future_already_retrieved,
         Except.error future_errc.future_already_retrieved) := by
  rfl

/-- C2: `get_future()` is decided by the mode. In alternative 2 it fails with
`future_already_retrieved` and changes nothing. In alternative 1, owning state
`val`, it returns a future on exactly `val`, leaves the handle in alternative 2
with a weak pointer to `val`, and the world (the state with any result in it,
and its strong count, now accounted for by the future) is as before. -/
theorem get_future_by_mode {T : Type} (w : World T) (val : shared_ptr)
    (h : 1 ≤ w.use_count val) :
    (∀ (u : World T) (observed : weak_ptr),
      promise.get_future (promise_common.weak observed) u
        = (Except.error future_errc.future_already_retrieved,
           promise_common.weak observed, u))
    ∧ promise.get_future (promise_common.shared val) w
        = (Except.ok { state := val }, promise_common.weak val, w)
    ∧ 1 ≤ (promise.get_future (promise_common.shared val) w).2.2.use_count val
    ∧ (promise.get_future (promise_common.shared val) w).2.2.peek val = w.peek val := by
  have hs := get_future_shared w val h
  refine ⟨fun u observed => get_future_weak u observed, hs, ?_, ?_⟩
  · simpa [promise.get_future, hs] using h
  · simp [promise.get_future, hs]

/-- Instance of C2: the promise just made by the default constructor in the empty world. -/
theorem get_future_by_mode_witness :
    1 ≤ (promise_common.create (World.empty Nat)).2.use_count (some 0)
    ∧ promise.get_future (promise_common.shared (some 0))
          (promise_common.create (World.empty Nat)).2
        = (Except.ok { state := some 0 }, promise_common.weak (some 0),
           (promise_common.create (World.empty Nat)).2) :=
  ⟨by decide,
   (get_future_by_mode (promise_common.create (World.empty Nat)).2 (some 0) (by decide)).2.1⟩

/-! ## Fulfilment -/

theorem emplace_unset {T : Type} (s : shared_state T) (v : T) (h : s.result = storage.unset) :
    ∃ t, s.emplace v = Except.ok t ∧ t.result = storage.value v := by
  refine ⟨{ result := storage.value v, continuations := [],
             invoked := s.invoked ++ s.continuations, executed := true }, ?_, rfl⟩
  simp only [shared_state.emplace, shared_state.deliver, h]

/-- Round trip on any owned state whose result is still unset. -/
theorem round_trip_owned {T : Type} (u : World T) (r : Nat) (b : control_block T) (v : T)
    (h : u.block r = some b) (hs : 1 ≤ b.strong) (hres : b.object.result = storage.unset) :
    promise.set_then_get (promise_common.shared (some r), u) v = some (storage.value v)
    ∧ promise.get_then_set (promise_common.shared (some r), u) v = some (storage.value v) := by
  obtain ⟨t, hem, ht⟩ := emplace_unset b.object v hres
  have hb2 : (u.put r { b with object := t }).block r = some { b with object := t } :=
    block_put_same u r b _ h
  constructor
  · have hset := set_value_reachable u (promise_common.shared (some r)) r b v (Or.inl rfl) h hs
    rw [hem] at hset
    have hget := get_future_shared (u.put r { b with object := t }) (some r)
      (by rw [use_count_of_block _ _ _ hb2]; exact hs)
    simp only [promise.set_then_get, promise.get_future, hset, hget]
    simp [future.result, World.peek, hb2, ht]
  · have hget := get_future_shared u (some r) (by rw [use_count_of_block _ _ _ h]; exact hs)
    have hset := set_value_reachable u (promise_common.weak (some r)) r b v (Or.inr rfl) h hs
    rw [hem] at hset
    simp only [promise.get_then_set, promise.get_future, hget, hset]
    simp [future.result, World.peek, hb2, ht]

theorem round_trip_core {T : Type} (w : World T) (v : T) (d : Option Nat) :
    promise.set_then_get
        (promise_common.shared (some w.heap.length),
         ({ heap := w.heap ++ [{ strong := 1, object := shared_state.fresh T, deleter := d }],
            cancelled := w.cancelled } : World T)) v = some (storage.value v)
    ∧ promise.get_then_set
        (promise_common.shared (some w.heap.length),
         ({ heap := w.heap ++ [{ strong := 1, object := shared_state.fresh T, deleter := d }],
            cancelled := w.cancelled } : World T)) v = some (storage.value v) :=
  round_trip_owned _ _ _ v (block_create w d) (le_refl 1) rfl

/-- C3: round trip. For every world, every value `v` and every promise just
made by the default, allocator or canceler constructor, `set_value(v)` followed
by `get_future()`, and `get_future()` followed by `set_value(v)` with the future
alive, both succeed and leave the future reading exactly the value `v` (with
`T := Unit` the value is the bare completion signal). -/
theorem set_value_get_future_round_trip {T : Type} (w : World T) (v : T) (f : Nat) :
    promise.set_then_get (promise_common.create w) v = some (storage.value v)
    ∧ promise.get_then_set (promise_common.create w) v = some (storage.value v)
    ∧ promise.set_then_get (promise_common.create_allocated w) v = some (storage.value v)
    ∧ promise.get_then_set (promise_common.create_allocated w) v = some (storage.value v)
    ∧ promise.set_then_get (promise_common.create_canceler f w) v = some (storage.value v)
    ∧ promise.get_then_set (promise_common.create_canceler f w) v = some (storage.value v) :=
  ⟨(round_trip_core w v none).1, (round_trip_core w v none).2,
   (round_trip_core w v none).1, (round_trip_core w v none).2,
   (round_trip_core w v (some f)).1, (round_trip_core w v (some f)).2⟩

/-! ## Abandonment -/

theorem step_get_future_weak {T : Type} (w : World T) (val : weak_ptr) :
    promise.step call.get_future (promise_common.weak val) w
      = (outcome.thrown future_errc.future_already_retrieved, promise_common.weak val, w) := by
  simp [promise.step, promise.get_future, get_future_weak]

theorem step_is_awaiten {T : Type} (w : World T) (p : promise_common) :
    (promise.step call.is_awaiten p w).2 = (p, w)
    ∧ ∀ F, (promise.step call.is_awaiten p w).1 ≠ outcome.future F := by
  cases h : promise.is_awaiten p w <;> simp [promise.step, h]

/-- Retrieval and query calls on a handle in alternative 2 change nothing and
hand out no future. -/
theorem run_retrieval_weak {T : Type} (cs : List (call T)) (w : World T) (val : weak_ptr)
    (hcs : ∀ c ∈ cs, c = call.get_future ∨ c = call.is_awaiten) :
    (promise.run cs (promise_common.weak val) w).2 = (promise_common.weak val, w)
    ∧ ∀ F, outcome.future F ∉ (promise.run cs (promise_common.weak val) w).1 := by
  induction cs with
  | nil => simp [promise.run]
  | cons c rest ih =>
    have hrest : ∀ c ∈ rest, c = call.get_future ∨ c = call.is_awaiten :=
      fun c hc => hcs c (List.mem_cons_of_mem _ hc)
    have ih2 := ih hrest
    rcases hcs c (List.mem_cons_self _ _) with rfl | rfl
    · simp only [promise.run, step_get_future_weak]
      refine ⟨ih2.1, ?_⟩
      intro F hF
      rcases List.mem_cons.mp hF with h | h
      · cases h
      · exact ih2.2 F h
    · have hst := step_is_awaiten w (promise_common.weak val)
      have h1 : (promise.step call.is_awaiten (promise_common.weak val) w).2.1
          = promise_common.weak val := congrArg Prod.fst hst.1
      have h2 : (promise.step call.is_awaiten (promise_common.weak val) w).2.2 = w :=
        congrArg Prod.snd hst.1
      simp only [promise.run, h1, h2]
      refine ⟨ih2.1, ?_⟩
      intro F hF
      rcases List.mem_cons.mp hF with h | h
      · exact hst.2 F h.symm
      · exact ih2.2 F h

/-- Retrieval and query calls on a handle owning its state leave the world as
it was; the handle either still owns the state and no future was handed out, or
it observes the state weakly and every future handed out is on that state. -/
theorem run_retrieval_shared {T : Type} (cs : List (call T)) (w : World T) (r : Nat)
    (b : control_block T) (h : w.block r = some b) (hs : 1 ≤ b.strong)
    (hcs : ∀ c ∈ cs, c = call.get_future ∨ c = call.is_awaiten) :
    (promise.run cs (promise_common.shared (some r)) w).2.2 = w
    ∧ (((promise.run cs (promise_common.shared (some r)) w).2.1 = promise_common.shared (some r)
        ∧ ∀ F, outcome.future F ∉ (promise.run cs (promise_common.shared (some r)) w).1)
      ∨ ((promise.run cs (promise_common.shared (some r)) w).2.1 = promise_common.weak (some r)
        ∧ ∀ F, outcome.future F ∈ (promise.run cs (promise_common.shared (some r)) w).1 →
            F = { state := some r })) := by
  induction cs with
  | nil => simp [promise.run]
  | cons c rest ih =>
    have hrest : ∀ c ∈ rest, c = call.get_future ∨ c = call.is_awaiten :=
      fun c hc => hcs c (List.mem_cons_of_mem _ hc)
    rcases hcs c (List.mem_cons_self _ _) with rfl | rfl
    · have hg := get_future_shared w (some r) (by rw [use_count_of_block _ _ _ h]; exact hs)
      have hst : promise.step call.get_future (promise_common.shared (some r)) w
          = (outcome.future { state := some r }, promise_common.weak (some r), w) := by
        simp [promise.step, promise.get_future, hg]
      have hw := run_retrieval_weak rest w (some r) hrest
      simp only [promise.run, hst]
      refine ⟨congrArg Prod.snd hw.1, Or.inr ⟨congrArg Prod.fst hw.1, ?_⟩⟩
      intro F hF
      rcases List.mem_cons.mp hF with h1 | h1
      · cases h1; rfl
      · exact absurd h1 (hw.2 F)
    · have hst := step_is_awaiten w (promise_common.shared (some r))
      have h1 : (promise.step call.is_awaiten (promise_common.shared (some r)) w).2.1
          = promise_common.shared (some r) := congrArg Prod.fst hst.1
      have h2 : (promise.step call.is_awaiten (promise_common.shared (some r)) w).2.2 = w :=
        congrArg Prod.snd hst.1
      have ih2 := ih hrest
      simp only [promise.run, h1, h2]
      refine ⟨ih2.1, ?_⟩
      rcases ih2.2 with ⟨hp, hn⟩ | ⟨hp, hn⟩
      · refine Or.inl ⟨hp, ?_⟩
        intro F hF
        rcases List.mem_cons.mp hF with h3 | h3
        · exact hst.2 F h3.symm
        · exact hn F h3
      · refine Or.inr ⟨hp, ?_⟩
        intro F hF
        rcases List.mem_cons.mp hF with h3 | h3
        · exact absurd h3.symm (hst.2 F)
        · exact hn F h3

theorem destroy_weak_alive {T : Type} (w : World T) (r : Nat) (b : control_block T)
    (h : w.block r = some b) (hs : 1 ≤ b.strong) :
    promise.destroy (promise_common.weak (some r)) w
      = w.put r { b with object := b.object.abandon } := by
  simp [promise.destroy, promise_common.destroy, promise_common.reset,
    abandon_weak_alive w r b h hs]

/-- C4: a promise made by the default or allocator constructor (no hook) goes
through any calls other than `set_value` / `set_exception` and is then
destroyed: every future that was obtained from it reads the broken-promise
error afterwards. -/
theorem broken_promise_observed {T : Type} (w : World T) (made : promise_common × World T)
    (cs : List (call T)) (F : future)
    (hmade : made = promise_common.create w ∨ made = promise_common.create_allocated w)
    (hcs : ∀ c ∈ cs, c = call.get_future ∨ c = call.is_awaiten)
    (hF : outcome.future F ∈ (promise.run cs made.1 made.2).1) :
    F.result (promise.destroy (promise.run cs made.1 made.2).2.1
        (promise.run cs made.1 made.2).2.2)
      = some (storage.error (exception_ptr.future_error future_errc.broken_promise)) := by
  have hm : made = promise_common.create w := by
    rcases hmade with h | h
    · exact h
    · exact h
  subst hm
  have hb := block_create w none
  have hrun := run_retrieval_shared cs _ w.heap.length _ hb (le_refl 1) hcs
  simp only [promise_common.create] at hF ⊢
  rcases hrun.2 with ⟨_, hn⟩ | ⟨hp, hn⟩
  · exact absurd hF (hn F)
  · rw [hrun.1, hp, hn F hF, destroy_weak_alive _ _ _ hb (le_refl 1)]
    simp only [future.result, World.peek, block_put_same _ _ _ _ hb]
    rfl

/-- Instance of C4: default constructor, `get_future()`, promise destroyed. -/
theorem broken_promise_observed_witness :
    future.result { state := some 0 }
        (promise.destroy
          (promise.run [call.get_future] (promise_common.create (World.empty Nat)).1
            (promise_common.create (World.empty Nat)).2).2.1
          (promise.run [call.get_future] (promise_common.create (World.empty Nat)).1
            (promise_common.create (World.empty Nat)).2).2.2)
      = some (storage.error (exception_ptr.future_error future_errc.broken_promise)) :=
  broken_promise_observed (World.empty Nat) (promise_common.create (World.empty Nat))
    [call.get_future] { state := some 0 } (Or.inl rfl) (by simp) (by decide)

/-! ## The cancellation hook -/

theorem release_last {T : Type} (w : World T) (r : Nat) (b : control_block T)
    (h : w.block r = some b) (hs : b.strong = 1) :
    w.release (some r) = w.dispose r b := by
  simp [World.release, h, hs]

theorem dispose_create {T : Type} (w : World T) (s : shared_state T) (d : Option Nat) :
    World.dispose { heap := w.heap ++ [{ strong := 1, object := s, deleter := d }],
                    cancelled := w.cancelled } w.heap.length
        { strong := 1, object := s, deleter := d }
      = { heap := w.heap ++ [{ strong := 0, object := s, deleter := d }],
          cancelled :=
            match d with
            | some f => if s.executed = false then w.cancelled ++ [f] else w.cancelled
            | none => w.cancelled } := by
  simp [World.dispose]

/-- The last owner of a state made by the canceler constructor goes away. -/
theorem release_create {T : Type} (w : World T) (s : shared_state T) (d : Option Nat) :
    World.release { heap := w.heap ++ [{ strong := 1, object := s, deleter := d }],
                    cancelled := w.cancelled } (some w.heap.length)
      = { heap := w.heap ++ [{ strong := 0, object := s, deleter := d }],
          cancelled :=
            match d with
            | some f => if s.executed = false then w.cancelled ++ [f] else w.cancelled
            | none => w.cancelled } := by
  rw [release_last _ _ _ (block_create_any w _) rfl, dispose_create]

theorem destroy_canceler_unused {T : Type} (w : World T) (f : Nat) :
    promise.destroy (promise_common.create_canceler f w).1 (promise_common.create_canceler f w).2
      = { heap := w.heap ++ [{ strong := 0, object := shared_state.fresh T, deleter := some f }],
          cancelled := w.cancelled ++ [f] } := by
  simp only [promise.destroy, promise_common.destroy, promise_common.create_canceler,
    promise_common.abandon, promise_common.reset, release_create]
  rfl

/-- C5: a promise made with hook `f` and destroyed at once (no `get_future`,
`set_value` or `set_exception` in between) deallocates its state, which calls
`f` exactly once, and the state never receives a result or an error. -/
theorem canceler_called_when_unused {T : Type} (w : World T) (f : Nat) :
    promise.destroy (promise_common.create_canceler f w).1 (promise_common.create_canceler f w).2
      = { heap := w.heap ++ [{ strong := 0, object := shared_state.fresh T, deleter := some f }],
          cancelled := w.cancelled ++ [f] }
    ∧ (promise.destroy (promise_common.create_canceler f w).1
          (promise_common.create_canceler f w).2).cancelled.count f = w.cancelled.count f + 1
    ∧ ((promise.destroy (promise_common.create_canceler f w).1
          (promise_common.create_canceler f w).2).peek (some w.heap.length)).map
        (fun s => s.result) = some storage.unset
    ∧ (promise.destroy (promise_common.create_canceler f w).1
          (promise_common.create_canceler f w).2).use_count (some w.heap.length) = 0 := by
  rw [destroy_canceler_unused]
  refine ⟨rfl, ?_, ?_, ?_⟩
  · simp
  · simp [World.peek, World.block, shared_state.fresh]
  · simp [World.use_count, World.block]

theorem get_future_canceler {T : Type} (w : World T) (f : Nat) :
    promise.get_future (promise_common.create_canceler f w).1 (promise_common.create_canceler f w).2
      = (Except.ok { state := some w.heap.length }, promise_common.weak (some w.heap.length),
         (promise_common.create_canceler f w).2) := by
  have hb := block_create w (some f)
  exact get_future_shared _ (some w.heap.length) (le_of_eq (use_count_of_block _ _ _ hb).symm)

theorem retrieve_then_drop_canceler {T : Type} (w : World T) (f : Nat) :
    promise.retrieve_then_drop (promise_common.create_canceler f w)
      = (Except.ok { state := some w.heap.length },
         { heap := w.heap ++ [{ strong := 1, object := (shared_state.fresh T).abandon,
                                deleter := some f }],
           cancelled := w.cancelled }) := by
  have hb := block_create w (some f)
  simp only [promise.retrieve_then_drop, get_future_canceler]
  simp only [promise_common.create_canceler, destroy_weak_alive _ _ _ hb (le_refl 1), put_create]

theorem retrieve_drop_release_canceler {T : Type} (w : World T) (f : Nat) :
    promise.retrieve_drop_release (promise_common.create_canceler f w)
      = { heap := w.heap ++ [{ strong := 0, object := (shared_state.fresh T).abandon,
                               deleter := some f }],
          cancelled := w.cancelled } := by
  simp only [promise.retrieve_drop_release, retrieve_then_drop_canceler, future.destroy,
    release_create]
  rfl

theorem destroy_weak_expired {T : Type} (w : World T) (val : weak_ptr)
    (h : w.expired val = true) :
    promise.destroy (promise_common.weak val) w = w := by
  simp [promise.destroy, promise_common.destroy, promise_common.reset, promise_common.abandon,
    lock_expired w val h]

theorem retrieve_release_drop_canceler {T : Type} (w : World T) (f : Nat) :
    promise.retrieve_release_drop (promise_common.create_canceler f w)
      = { heap := w.heap ++ [{ strong := 0, object := shared_state.fresh T, deleter := some f }],
          cancelled := w.cancelled ++ [f] } := by
  have hx : World.expired
      ({ heap := w.heap ++ [{ strong := 0, object := shared_state.fresh T, deleter := some f }],
         cancelled := w.cancelled ++ [f] } : World T) (some w.heap.length) = true := by
    simp [World.expired, World.use_count, World.block]
  simp only [promise.retrieve_release_drop, get_future_canceler, future.destroy]
  simp only [promise_common.create_canceler, release_create]
  exact destroy_weak_expired _ _ hx

/-- C6, refuted as stated: a promise made with hook 7 hands out its future and
is destroyed, unfulfilled, while the future lives. The state receives the
broken-promise error and the hook is not called, neither at that moment nor
when the future is destroyed afterwards. -/
theorem canceler_skipped_with_live_future :
    (promise.retrieve_then_drop (promise_common.create_canceler 7 (World.empty Nat))).1
      = Except.ok { state := some 0 }
    ∧ (promise.retrieve_then_drop
        (promise_common.create_canceler 7 (World.empty Nat))).2.cancelled.count 7 = 0
    ∧ future.result { state := some 0 }
        (promise.retrieve_then_drop (promise_common.create_canceler 7 (World.empty Nat))).2
      = some (storage.error (exception_ptr.future_error future_errc.broken_promise))
    ∧ (promise.retrieve_drop_release
        (promise_common.create_canceler 7 (World.empty Nat))).cancelled.count 7 = 0 := by
  refine ⟨rfl, by decide, by decide, by decide⟩

/-- C6, as the code has it: a promise made with hook `f` is destroyed without
fulfilment. If no future obtained from it lives at that moment (none was
retrieved, or the retrieved one is already destroyed), `f` is called exactly
once and the state never receives the broken-promise error. If the retrieved
future still lives, destroying the promise delivers the broken-promise error to
the state and `f` is not called, then or when the future goes. -/
theorem canceler_on_destroy_by_case {T : Type} (w : World T) (f : Nat) :
    promise.destroy (promise_common.create_canceler f w).1 (promise_common.create_canceler f w).2
      = { heap := w.heap ++ [{ strong := 0, object := shared_state.fresh T, deleter := some f }],
          cancelled := w.cancelled ++ [f] }
    ∧ promise.retrieve_release_drop (promise_common.create_canceler f w)
      = { heap := w.heap ++ [{ strong := 0, object := shared_state.fresh T, deleter := some f }],
          cancelled := w.cancelled ++ [f] }
    ∧ (shared_state.fresh T).result = storage.unset
    ∧ promise.retrieve_then_drop (promise_common.create_canceler f w)
      = (Except.ok { state := some w.heap.length },
         { heap := w.heap ++ [{ strong := 1, object := (shared_state.fresh T).abandon,
                                deleter := some f }],
           cancelled := w.cancelled })
    ∧ promise.retrieve_drop_release (promise_common.create_canceler f w)
      = { heap := w.heap ++ [{ strong := 0, object := (shared_state.fresh T).abandon,
                               deleter := some f }],
          cancelled := w.cancelled }
    ∧ (shared_state.fresh T).abandon.result
      = storage.error (exception_ptr.future_error future_errc.broken_promise) :=
  ⟨destroy_canceler_unused w f, retrieve_release_drop_canceler w f, rfl,
   retrieve_then_drop_canceler w f, retrieve_drop_release_canceler w f, rfl⟩

/-! ## Fulfilment without a listener -/

/-- C7: on a handle in alternative 2 whose state is held by no strong reference,
`set_value` and `set_exception` return normally, write nothing and leave the
handle as it is. On a handle (alternative 1 or 2) whose state `b.object` is
still owned, they run that state's `emplace` / `set_exception` exactly once: the
state becomes the outcome of that one call, or its exception leaves the call
with nothing changed. -/
theorem fulfilment_by_reachability {T : Type} (w : World T)
    (p : promise_common) (r : Nat) (b : control_block T) (val : T) (error : exception_ptr)
    (hp : p = promise_common.shared (some r) ∨ p = promise_common.weak (some r))
    (hb : w.block r = some b) (hs : 1 ≤ b.strong) :
    (∀ (u : World T) (gone : weak_ptr), u.expired gone = true →
      promise.set_value (promise_common.weak gone) val u
        = (Except.ok (), promise_common.weak gone, u)
      ∧ promise.set_exception (promise_common.weak gone) error u
        = (Except.ok (), promise_common.weak gone, u))
    ∧ promise.set_value p val w
      = (match b.object.emplace val with
        | Except.error e => (Except.error e, p, w)
        | Except.ok s => (Except.ok (), p, w.put r { b with object := s }))
    ∧ promise.set_exception p error w
      = (match b.object.set_exception error with
        | Except.error e => (Except.error e, p, w)
        | Except.ok s => (Except.ok (), p, w.put r { b with object := s })) :=
  ⟨fun u gone hgone =>
      ⟨set_value_expired u gone val hgone, set_exception_expired u gone error hgone⟩,
   set_value_reachable w p r b val hp hb hs, set_exception_reachable w p r b error hp hb hs⟩

/-- Instance of C7: `set_value(1)` after the only future is gone, and with it alive. -/
theorem fulfilment_by_reachability_witness :
    promise.set_value (promise_common.weak (some 0)) 1
        ({ heap := [{ strong := 0, object := shared_state.fresh Nat, deleter := none }],
           cancelled := [] } : World Nat)
      = (Except.ok (), promise_common.weak (some 0),
         { heap := [{ strong := 0, object := shared_state.fresh Nat, deleter := none }],
           cancelled := [] })
    ∧ promise.set_value (promise_common.weak (some 0)) 1
        ({ heap := [{ strong := 1, object := shared_state.fresh Nat, deleter := none }],
           cancelled := [] } : World Nat)
      = (Except.ok (), promise_common.weak (some 0),
         { heap := [{ strong := 1,
                      object := { result := storage.value 1, continuations := [], invoked := [],
                                  executed := true },
                      deleter := none }],
           cancelled := [] }) :=
  ⟨((fulfilment_by_reachability
      ({ heap := [{ strong := 1, object := shared_state.fresh Nat, deleter := none }],
         cancelled := [] } : World Nat)
      (promise_common.weak (some 0)) 0
      { strong := 1, object := shared_state.fresh Nat, deleter := none } 1
      (exception_ptr.user 0) (Or.inr rfl) (by decide) (by decide)).1
        ({ heap := [{ strong := 0, object := shared_state.fresh Nat, deleter := none }],
           cancelled := [] } : World Nat) (some 0) (by decide)).1,
   (fulfilment_by_reachability
      ({ heap := [{ strong := 1, object := shared_state.fresh Nat, deleter := none }],
         cancelled := [] } : World Nat)
      (promise_common.weak (some 0)) 0
      { strong := 1, object := shared_state.fresh Nat, deleter := none } 1
      (exception_ptr.user 0) (Or.inr rfl) (by decide) (by decide)).2.1⟩

/-! ## `is_awaiten` -/

/-- C8: `is_awaiten()` is decided by the mode: true in alternative 1; in
alternative 2 true exactly when the state still has a strong owner; and the
call leaves the handle and the world as they are. -/
theorem is_awaiten_by_mode {T : Type} (w : World T) (val : Option Nat) (p : promise_common) :
    promise.is_awaiten (promise_common.shared val) w = Except.ok true
    ∧ promise.is_awaiten (promise_common.weak val) w = Except.ok (decide (1 ≤ w.use_count val))
    ∧ (promise.is_awaiten (promise_common.weak val) w = Except.ok true ↔ 1 ≤ w.use_count val)
    ∧ (promise.step call.is_awaiten p w).2 = (p, w) := by
  have h2 : promise.is_awaiten (promise_common.weak val) w
      = Except.ok (decide (1 ≤ w.use_count val)) := by
    simp only [promise.is_awaiten, promise_common.is_awaiten, World.expired]
    by_cases h : w.use_count val = 0
    · simp [h]
    · have : 1 ≤ w.use_count val := by omega
      simp [h, this]
  refine ⟨rfl, h2, ?_, (step_is_awaiten w p).1⟩
  rw [h2]
  simp

theorem is_awaiten_false_weak {T : Type} (w : World T) (p : promise_common)
    (h : promise.is_awaiten p w = Except.ok false) :
    ∃ val, p = promise_common.weak val ∧ w.expired val = true := by
  cases p with
  | monostate => simp [promise.is_awaiten, promise_common.is_awaiten] at h
  | shared val => simp [promise.is_awaiten, promise_common.is_awaiten] at h
  | weak val =>
    refine ⟨val, rfl, ?_⟩
    simpa [promise.is_awaiten, promise_common.is_awaiten] using h

/-- C9, refuted as stated: after `get_future()` with the future alive,
`is_awaiten()` returns true although no further future can be obtained; and on
an empty handle no future can be obtained either, yet `is_awaiten()` throws
instead of returning false. -/
theorem awaiten_or_reading_refuted :
    ¬ (promise.is_awaiten
          (promise.get_future (promise_common.create (World.empty Nat)).1
            (promise_common.create (World.empty Nat)).2).2.1
          (promise.get_future (promise_common.create (World.empty Nat)).1
            (promise_common.create (World.empty Nat)).2).2.2 = Except.ok false
        ↔ (promise.no_future_obtainable
            (promise.get_future (promise_common.create (World.empty Nat)).1
              (promise_common.create (World.empty Nat)).2).2.1
            (promise.get_future (promise_common.create (World.empty Nat)).1
              (promise_common.create (World.empty Nat)).2).2.2
          ∨ promise.state_unreachable
            (promise.get_future (promise_common.create (World.empty Nat)).1
              (promise_common.create (World.empty Nat)).2).2.1
            (promise.get_future (promise_common.create (World.empty Nat)).1
              (promise_common.create (World.empty Nat)).2).2.2))
    ∧ ¬ (promise.is_awaiten promise_common.monostate (World.empty Nat) = Except.ok false
        ↔ (promise.no_future_obtainable promise_common.monostate (World.empty Nat)
          ∨ promise.state_unreachable promise_common.monostate (World.empty Nat))) := by
  constructor
  · intro h
    have hr := h.mpr (Or.inl (fun F hF => by cases hF))
    cases hr
  · intro h
    have hr := h.mpr (Or.inl (fun F hF => by cases hF))
    cases hr

/-- C9, as the code has it: `is_awaiten()` returns false exactly when no future
can be obtained because one was retrieved before (`get_future()` would fail with
`future_already_retrieved`) and, in addition, the state is held by no strong
reference any more. -/
theorem is_awaiten_false_iff {T : Type} (p : promise_common) (w : World T) :
    promise.is_awaiten p w = Except.ok false
      ↔ ((promise.get_future p w).1 = Except.error future_errc.future_already_retrieved
          ∧ promise.state_unreachable p w) := by
  cases p with
  | monostate =>
    simp [promise.is_awaiten, promise_common.is_awaiten, promise.get_future,
      get_future_monostate]
  | shared val =>
    simp [promise.is_awaiten, promise_common.is_awaiten, promise.get_future,
      promise_common.get_future, promise_common.state, promise_common.get_state]
  | weak val =>
    simp [promise.is_awaiten, promise_common.is_awaiten, promise.get_future,
      get_future_weak, promise.state_unreachable, promise_common.pointer, World.expired]

theorem run_expired {T : Type} (cs : List (call T)) (w : World T) (val : weak_ptr)
    (hx : w.expired val = true) :
    (promise.run cs (promise_common.weak val) w).2 = (promise_common.weak val, w)
    ∧ ∀ o ∈ (promise.run cs (promise_common.weak val) w).1,
        o = outcome.thrown future_errc.future_already_retrieved ∨ o = outcome.done
          ∨ o = outcome.answer false := by
  induction cs with
  | nil => simp [promise.run]
  | cons c rest ih =>
    have hstep : (promise.step c (promise_common.weak val) w).2 = (promise_common.weak val, w)
        ∧ ((promise.step c (promise_common.weak val) w).1
              = outcome.thrown future_errc.future_already_retrieved
            ∨ (promise.step c (promise_common.weak val) w).1 = outcome.done
            ∨ (promise.step c (promise_common.weak val) w).1 = outcome.answer false) := by
      cases c with
      | get_future => simp [step_get_future_weak]
      | set_value v => simp [promise.step, set_value_expired w val v hx]
      | set_exception e =>
        simp [promise.step, promise.set_exception, set_exception_expired w val e hx]
      | is_awaiten =>
        simp [promise.step, promise.is_awaiten, promise_common.is_awaiten, hx]
    have h1 : (promise.step c (promise_common.weak val) w).2.1 = promise_common.weak val :=
      congrArg Prod.fst hstep.1
    have h2 : (promise.step c (promise_common.weak val) w).2.2 = w := congrArg Prod.snd hstep.1
    simp only [promise.run, h1, h2]
    refine ⟨ih.1, ?_⟩
    intro o ho
    rcases List.mem_cons.mp ho with h3 | h3
    · rw [h3]; exact hstep.2
    · exact ih.2 o h3

/-- C10: once `is_awaiten()` has returned false, no strong reference (hence no
live future) holds the state, and whatever `get_future` / `set_value` /
`set_exception` / `is_awaiten` calls follow, the handle and the world stay as
they are, every `get_future` throws `future_already_retrieved`, every
`is_awaiten` answers false, and the same holds for one more call of each. -/
theorem not_awaiten_is_final {T : Type} (p : promise_common) (w : World T) (cs : List (call T))
    (h : promise.is_awaiten p w = Except.ok false) :
    w.use_count p.pointer = 0
    ∧ (promise.run cs p w).2 = (p, w)
    ∧ (∀ o ∈ (promise.run cs p w).1,
        o = outcome.thrown future_errc.future_already_retrieved ∨ o = outcome.done
          ∨ o = outcome.answer false)
    ∧ (promise.get_future (promise.run cs p w).2.1 (promise.run cs p w).2.2).1
        = Except.error future_errc.future_already_retrieved
    ∧ promise.is_awaiten (promise.run cs p w).2.1 (promise.run cs p w).2.2 = Except.ok false := by
  obtain ⟨val, rfl, hx⟩ := is_awaiten_false_weak w p h
  have hrun := run_expired cs w val hx
  have h1 : (promise.run cs (promise_common.weak val) w).2.1 = promise_common.weak val :=
    congrArg Prod.fst hrun.1
  have h2 : (promise.run cs (promise_common.weak val) w).2.2 = w := congrArg Prod.snd hrun.1
  refine ⟨?_, hrun.1, hrun.2, ?_, ?_⟩
  · simpa [World.expired, promise_common.pointer] using hx
  · rw [h1, h2]
    simp [promise.get_future, get_future_weak]
  · rw [h1, h2]
    exact h

/-- Instance of C10: a handle whose future was destroyed, then three more calls. -/
theorem not_awaiten_is_final_witness :
    promise.is_awaiten (promise_common.weak (some 0))
        ({ heap := [{ strong := 0, object := shared_state.fresh Nat, deleter := none }],
           cancelled := [] } : World Nat) = Except.ok false
    ∧ (promise.run [call.get_future, call.set_value 1, call.is_awaiten]
          (promise_common.weak (some 0))
          ({ heap := [{ strong := 0, object := shared_state.fresh Nat, deleter := none }],
             cancelled := [] } : World Nat)).2
        = (promise_common.weak (some 0),
           { heap := [{ strong := 0, object := shared_state.fresh Nat, deleter := none }],
             cancelled := [] }) :=
  ⟨rfl,
   (not_awaiten_is_final (promise_common.weak (some 0))
      ({ heap := [{ strong := 0, object := shared_state.fresh Nat, deleter := none }],
         cancelled := [] } : World Nat)
      [call.get_future, call.set_value 1, call.is_awaiten] rfl).2.1⟩

/-! ## The empty handle -/

/-- C11: on a handle in `monostate`, `get_future()`, `set_value()`,
`set_exception()` and `is_awaiten()` each throw `no_state` (not
`future_already_retrieved`, and none returns normally), and the handle is still
in `monostate`, the world untouched, afterwards. A moved-from handle is such a
handle. -/
theorem empty_handle_throws_no_state {T : Type} (w : World T) (val : T) (error : exception_ptr)
    (rhs : promise_common) :
    promise.get_future promise_common.monostate w
      = (Except.error future_errc.no_state, promise_common.monostate, w)
    ∧ promise.set_value promise_common.monostate val w
      = (Except.error future_errc.no_state, promise_common.monostate, w)
    ∧ promise.set_exception promise_common.monostate error w
      = (Except.error future_errc.no_state, promise_common.monostate, w)
    ∧ promise.is_awaiten promise_common.monostate w = Except.error future_errc.no_state
    ∧ promise.step call.is_awaiten promise_common.monostate w
      = (outcome.thrown future_errc.no_state, promise_common.monostate, w)
    ∧ (promise_common.move_construct rhs).2 = promise_common.monostate
    ∧ (promise.move_assign promise_common.monostate rhs w).2.1 = promise_common.monostate := by
  refine ⟨get_future_monostate w, ?_, ?_, rfl, rfl, rfl, rfl⟩
  · simp [promise.set_value, promise_common.get_state]
  · simp [promise.set_exception, promise_common.set_exception, promise_common.get_state]

/-! ## Destruction and move assignment -/

/-- Changing only the strong count of a block leaves every state object as it is. -/
theorem peek_set_strong {T : Type} (w : World T) (r : Nat) (b : control_block T) (n : Nat)
    (c : List Nat) (q : Option Nat) (h : w.block r = some b) :
    World.peek ({ heap := w.heap.set r { b with strong := n }, cancelled := c } : World T) q
      = w.peek q := by
  cases q with
  | none => rfl
  | some a =>
    unfold World.block at h
    by_cases ha : r = a
    · subst ha
      have hlt : r < w.heap.length := (List.getElem?_eq_some.mp h).1
      simp [World.peek, World.block, List.getElem?_set_self hlt, h]
    · simp [World.peek, World.block, List.getElem?_set_ne ha]

/-- Dropping a strong reference never touches a state object. -/
theorem peek_release {T : Type} (w : World T) (val : shared_ptr) (q : Option Nat) :
    (w.release val).peek q = w.peek q := by
  cases val with
  | none => rfl
  | some r =>
    cases hb : w.block r with
    | none => simp [World.release, hb]
    | some b =>
      by_cases hz : b.strong - 1 = 0
      · simp only [World.release, hb, hz, if_true, World.dispose]
        exact peek_set_strong w r b 0 _ q hb
      · simp only [World.release, hb, hz, if_false, World.put]
        exact peek_set_strong w r b (b.strong - 1) _ q hb

theorem destroy_shared {T : Type} (w : World T) (val : shared_ptr) :
    promise.destroy (promise_common.shared val) w = w.release val := by
  simp [promise.destroy, promise_common.destroy, promise_common.abandon, promise_common.reset]

theorem destroy_monostate {T : Type} (w : World T) :
    promise.destroy promise_common.monostate w = w := by
  simp [promise.destroy, promise_common.destroy, promise_common.abandon, promise_common.reset]

/-- C12, refuted as stated: a promise made by the default constructor is
destroyed in alternative 1. Its state is deallocated with the result still
unset and nothing executed: the state's `abandon()` did not run, although the
state was reachable from the handle. -/
theorem destroy_owner_skips_abandon :
    (promise.destroy (promise_common.create (World.empty Nat)).1
        (promise_common.create (World.empty Nat)).2).peek (some 0)
      = some (shared_state.fresh Nat)
    ∧ (shared_state.fresh Nat).abandon ≠ shared_state.fresh Nat
    ∧ ((promise.destroy (promise_common.create (World.empty Nat)).1
        (promise_common.create (World.empty Nat)).2).peek (some 0)).map (fun s => s.result)
      ≠ some (storage.error (exception_ptr.future_error future_errc.broken_promise))
    ∧ (promise.destroy (promise_common.create (World.empty Nat)).1
        (promise_common.create (World.empty Nat)).2).cancelled = [] := by
  refine ⟨rfl, by decide, by decide, rfl⟩

/-- C12, as the code has it: the destructor always calls `abandon()` of the
handle, which runs the state's `abandon()` only in alternative 2 with a weak
pointer that still locks. In alternative 1 the state's `abandon()` is not run:
the handle's strong reference is dropped and no state object changes. With an
expired weak pointer or in `monostate` the destruction changes nothing. -/
theorem destroy_by_mode {T : Type} (w : World T) (r : Nat) (b : control_block T)
    (hb : w.block r = some b) (hs : 1 ≤ b.strong) :
    promise.destroy (promise_common.weak (some r)) w
      = w.put r { b with object := b.object.abandon }
    ∧ (∀ (u : World T) (val : shared_ptr) (q : Option Nat),
        promise.destroy (promise_common.shared val) u = u.release val
        ∧ (promise.destroy (promise_common.shared val) u).peek q = u.peek q)
    ∧ (∀ (u : World T) (gone : weak_ptr), u.expired gone = true →
        promise.destroy (promise_common.weak gone) u = u)
    ∧ (∀ u : World T, promise.destroy promise_common.monostate u = u) :=
  ⟨destroy_weak_alive w r b hb hs,
   fun u val q => ⟨destroy_shared u val, by rw [destroy_shared]; exact peek_release u val q⟩,
   fun u gone h => destroy_weak_expired u gone h,
   fun u => destroy_monostate u⟩

/-- Instance of C12: the promise is destroyed while its future holds the state. -/
theorem destroy_by_mode_witness :
    promise.destroy (promise_common.weak (some 0))
        ({ heap := [{ strong := 1, object := shared_state.fresh Nat, deleter := none }],
           cancelled := [] } : World Nat)
      = { heap := [{ strong := 1, object := (shared_state.fresh Nat).abandon, deleter := none }],
          cancelled := [] } :=
  (destroy_by_mode
    ({ heap := [{ strong := 1, object := shared_state.fresh Nat, deleter := none }],
       cancelled := [] } : World Nat) 0
    { strong := 1, object := shared_state.fresh Nat, deleter := none } (by decide) (by decide)).1

theorem move_assign_world {T : Type} (p rhs : promise_common) (w : World T) :
    promise.move_assign p rhs w = (rhs, promise_common.monostate, promise.destroy p w) := by
  rfl

/-- C13, refuted as stated: `p` owns state 0 (default constructor, no future
retrieved), `q` owns state 1, and `p = std::move(q)` is executed. State 0 gets no
abandonment signal: it is deallocated with its result unset, nothing executed
and no hook called. -/
theorem move_assign_owner_skips_abandon :
    (promise.move_assign (promise_common.shared (some 0)) (promise_common.shared (some 1))
        (promise_common.create (promise_common.create (World.empty Nat)).2).2).2.2
      = { heap := [{ strong := 0, object := shared_state.fresh Nat, deleter := none },
                   { strong := 1, object := shared_state.fresh Nat, deleter := none }],
          cancelled := [] }
    ∧ (shared_state.fresh Nat).result = storage.unset
    ∧ (shared_state.fresh Nat).abandon ≠ shared_state.fresh Nat := by
  refine ⟨rfl, rfl, by decide⟩

/-- C13, as the code has it: `p = std::move(q)` first does to the world what
destroying `p` does, and then `p` holds exactly the alternative and pointer `q`
held. The state `p` referenced gets the state's `abandon()` only if `p` was in
alternative 2 with a weak pointer that locks; if `p` was in alternative 1 its
strong reference is dropped and no state object changes; otherwise nothing
happens to the world. -/
theorem move_assign_by_mode {T : Type} (w : World T) (r : Nat) (b : control_block T)
    (q : promise_common) (hb : w.block r = some b) (hs : 1 ≤ b.strong) :
    (∀ (u : World T) (p rhs : promise_common),
        (promise.move_assign p rhs u).1 = rhs
        ∧ (promise.move_assign p rhs u).2.2 = promise.destroy p u)
    ∧ promise.move_assign (promise_common.weak (some r)) q w
      = (q, promise_common.monostate, w.put r { b with object := b.object.abandon })
    ∧ (∀ (u : World T) (val : shared_ptr) (rhs : promise_common) (a : Option Nat),
        promise.move_assign (promise_common.shared val) rhs u
          = (rhs, promise_common.monostate, u.release val)
        ∧ (promise.move_assign (promise_common.shared val) rhs u).2.2.peek a = u.peek a)
    ∧ (∀ (u : World T) (gone : weak_ptr) (rhs : promise_common), u.expired gone = true →
        promise.move_assign (promise_common.weak gone) rhs u
          = (rhs, promise_common.monostate, u))
    ∧ (∀ (u : World T) (rhs : promise_common),
        promise.move_assign promise_common.monostate rhs u
          = (rhs, promise_common.monostate, u)) := by
  refine ⟨fun u p rhs => ⟨rfl, rfl⟩, ?_, ?_, ?_, ?_⟩
  · rw [move_assign_world, destroy_weak_alive w r b hb hs]
  · intro u val rhs a
    rw [move_assign_world, destroy_shared]
    exact ⟨rfl, peek_release u val a⟩
  · intro u gone rhs h
    rw [move_assign_world, destroy_weak_expired u gone h]
  · intro u rhs
    rw [move_assign_world, destroy_monostate]

/-- Instance of C13: `p` observes state 0, held by its future, and is assigned
from `q`, the owner of state 1. -/
theorem move_assign_by_mode_witness :
    promise.move_assign (promise_common.weak (some 0)) (promise_common.shared (some 1))
        ({ heap := [{ strong := 1, object := shared_state.fresh Nat, deleter := none },
                    { strong := 1, object := shared_state.fresh Nat, deleter := none }],
           cancelled := [] } : World Nat)
      = (promise_common.shared (some 1), promise_common.monostate,
         { heap := [{ strong := 1, object := (shared_state.fresh Nat).abandon, deleter := none },
                    { strong := 1, object := shared_state.fresh Nat, deleter := none }],
           cancelled := [] }) :=
  (move_assign_by_mode
    ({ heap := [{ strong := 1, object := shared_state.fresh Nat, deleter := none },
                { strong := 1, object := shared_state.fresh Nat, deleter := none }],
       cancelled := [] } : World Nat) 0
    { strong := 1, object := shared_state.fresh Nat, deleter := none }
    (promise_common.shared (some 1)) (by decide) (by decide)).2.1

/-! ## Mode transitions -/

theorem set_value_handle {T : Type} (p : promise_common) (val : T) (w : World T) :
    (promise.set_value p val w).2.1 = p := by
  unfold promise.set_value
  split
  · rfl
  · split <;> rfl

theorem set_exception_handle {T : Type} (p : promise_common) (error : exception_ptr)
    (w : World T) : (promise.set_exception p error w).2.1 = p := by
  unfold promise.set_exception promise_common.set_exception
  split
  · rfl
  · split <;> rfl

/-- The only change `get_future()` makes to a handle is from alternative 1 to
alternative 2 on the same pointer, and then it has returned a future. -/
theorem get_future_handle {T : Type} (p : promise_common) (w : World T) :
    (promise.get_future p w).2.1 = p
    ∨ (p.state = 1 ∧ (promise.get_future p w).2.1.state = 2
        ∧ (promise.get_future p w).2.1.pointer = p.pointer
        ∧ ∃ F, (promise.get_future p w).1 = Except.ok F) := by
  cases p with
  | monostate => left; simp [promise.get_future, get_future_monostate]
  | weak val => left; simp [promise.get_future, get_future_weak]
  | shared val =>
    right
    simp [promise.get_future, promise_common.get_future, promise_common.state,
      promise_common.get_state, promise_common.pointer]

theorem step_get_future_eq {T : Type} (p : promise_common) (w : World T) :
    (promise.step call.get_future p w).2 = (promise.get_future p w).2
    ∧ ∀ F, (promise.get_future p w).1 = Except.ok F →
        (promise.step call.get_future p w).1 = outcome.future F := by
  simp only [promise.step]
  split
  · next f q w1 heq => simp [heq]
  · next e q w1 heq => simp [heq]

theorem step_set_value_eq {T : Type} (p : promise_common) (v : T) (w : World T) :
    (promise.step (call.set_value v) p w).2 = (promise.set_value p v w).2 := by
  simp only [promise.step]
  split
  · next u q w1 heq => simp [heq]
  · next e q w1 heq => simp [heq]

theorem step_set_exception_eq {T : Type} (p : promise_common) (e : exception_ptr)
    (w : World T) :
    (promise.step (call.set_exception e) p w).2 = (promise.set_exception p e w).2 := by
  simp only [promise.step]
  split
  · next u q w1 heq => simp [heq]
  · next e q w1 heq => simp [heq]

theorem step_handle {T : Type} (c : call T) (p : promise_common) (w : World T) :
    (promise.step c p w).2.1 = p
    ∨ (p.state = 1 ∧ (promise.step c p w).2.1.state = 2
        ∧ ∃ F, (promise.step c p w).1 = outcome.future F) := by
  cases c with
  | get_future =>
    have hs := step_get_future_eq p w
    rcases get_future_handle p w with h | ⟨h1, h2, _, F, hF⟩
    · left; rw [hs.1]; exact h
    · right
      refine ⟨h1, ?_, F, hs.2 F hF⟩
      rw [hs.1]; exact h2
  | set_value v => left; rw [step_set_value_eq]; exact set_value_handle p v w
  | set_exception e => left; rw [step_set_exception_eq]; exact set_exception_handle p e w
  | is_awaiten => left; exact congrArg Prod.fst (step_is_awaiten w p).1

theorem run_handle {T : Type} (cs : List (call T)) (p : promise_common) (w : World T) :
    (promise.run cs p w).2.1.state = p.state
    ∨ (p.state = 1 ∧ (promise.run cs p w).2.1.state = 2) := by
  induction cs generalizing p w with
  | nil => left; rfl
  | cons c rest ih =>
    have hrun : (promise.run (c :: rest) p w).2.1
        = (promise.run rest (promise.step c p w).2.1 (promise.step c p w).2.2).2.1 := rfl
    rw [hrun]
    rcases step_handle c p w with h | ⟨h1, h2, _⟩
    · rw [h]
      exact ih p _
    · rcases ih (promise.step c p w).2.1 (promise.step c p w).2.2 with h3 | ⟨h3, _⟩
      · right; exact ⟨h1, by rw [h3, h2]⟩
      · rw [h2] at h3; cases h3

/-- C14, refuted as stated: `p` has handed out its future (alternative 2) and is
then move-assigned from a newly made promise `q` (alternative 1): `p` goes from
alternative 2 back to alternative 1, and `q` from alternative 1 to `monostate`. -/
theorem move_assign_reverses_mode :
    (promise.get_future (promise_common.create (World.empty Nat)).1
        (promise_common.create (World.empty Nat)).2).2.1.state = 2
    ∧ (promise_common.create
        (promise.get_future (promise_common.create (World.empty Nat)).1
          (promise_common.create (World.empty Nat)).2).2.2).1.state = 1
    ∧ (promise.move_assign
        (promise.get_future (promise_common.create (World.empty Nat)).1
          (promise_common.create (World.empty Nat)).2).2.1
        (promise_common.create
          (promise.get_future (promise_common.create (World.empty Nat)).1
            (promise_common.create (World.empty Nat)).2).2.2).1
        (promise_common.create
          (promise.get_future (promise_common.create (World.empty Nat)).1
            (promise_common.create (World.empty Nat)).2).2.2).2).1.state = 1
    ∧ (promise.move_assign
        (promise.get_future (promise_common.create (World.empty Nat)).1
          (promise_common.create (World.empty Nat)).2).2.1
        (promise_common.create
          (promise.get_future (promise_common.create (World.empty Nat)).1
            (promise_common.create (World.empty Nat)).2).2.2).1
        (promise_common.create
          (promise.get_future (promise_common.create (World.empty Nat)).1
            (promise_common.create (World.empty Nat)).2).2.2).2).2.1.state = 0 := by
  refine ⟨rfl, rfl, rfl, rfl⟩

/-- C14, as the code has it: the calls `get_future`, `set_value`,
`set_exception` and `is_awaiten` change the mode of a handle in one way only,
from alternative 1 to alternative 2 at a `get_future` that returns a future, and
so does any sequence of them. The constructors start a handle in alternative 1,
or in alternative 2 when given a weak pointer. Move construction and move
assignment give the target whatever mode the source has, also alternative 1 for
a target in alternative 2, and leave the source in `monostate`. -/
theorem mode_transitions {T : Type} (w : World T) (p rhs : promise_common) (c : call T)
    (cs : List (call T)) (f : Nat) (state : weak_ptr) :
    ((promise.step c p w).2.1 = p
      ∨ (p.state = 1 ∧ (promise.step c p w).2.1.state = 2
          ∧ ∃ F, (promise.step c p w).1 = outcome.future F))
    ∧ ((promise.run cs p w).2.1.state = p.state
      ∨ (p.state = 1 ∧ (promise.run cs p w).2.1.state = 2))
    ∧ (promise_common.create w).1.state = 1
    ∧ (promise_common.create_allocated w).1.state = 1
    ∧ (promise_common.create_canceler f w).1.state = 1
    ∧ (promise_common.create_weak state w).1.state = 2
    ∧ promise_common.move_construct rhs = (rhs, promise_common.monostate)
    ∧ (promise.move_assign p rhs w).1 = rhs
    ∧ (promise.move_assign p rhs w).2.1 = promise_common.monostate :=
  ⟨step_handle c p w, run_handle cs p w, rfl, rfl, rfl, rfl, rfl, rfl, rfl⟩

/-! ## When the hook runs -/

theorem abandon_executed {T : Type} (s : shared_state T) (h : s.executed = true) :
    s.abandon = s := by
  simp [shared_state.abandon, h]

theorem deliver_executed {T : Type} (s t : shared_state T) (r : storage T)
    (h : s.deliver r = Except.ok t) : t.executed = true := by
  unfold shared_state.deliver at h
  split at h
  · cases h; rfl
  · cases h

theorem release_cancelled {T : Type} (w : World T) (r : Nat) (b : control_block T) (f : Nat)
    (hb : w.block r = some b) (hd : b.deleter = some f) :
    (w.release (some r)).cancelled
      = if b.strong - 1 = 0 then
          (if b.object.executed = false then w.cancelled ++ [f] else w.cancelled)
        else w.cancelled := by
  by_cases hz : b.strong - 1 = 0
  · simp [World.release, hb, hz, World.dispose, hd]
  · simp [World.release, hb, hz, World.put]

theorem release_use_count {T : Type} (w : World T) (r : Nat) (b : control_block T)
    (hb : w.block r = some b) : (w.release (some r)).use_count (some r) = b.strong - 1 := by
  have hlt : r < w.heap.length := by
    unfold World.block at hb
    exact (List.getElem?_eq_some.mp hb).1
  by_cases hz : b.strong - 1 = 0
  · simp only [World.release, hb, hz, if_true, World.dispose]
    simp [World.use_count, World.block, List.getElem?_set_self hlt]
  · simp only [World.release, hb, hz, if_false, World.put]
    simp [World.use_count, World.block, List.getElem?_set_self hlt]

/-- A state made by the canceler constructor that has executed its
continuations loses its promise and then its future: the hook is not called. -/
theorem drop_all_executed {T : Type} (u : World T) (s : shared_state T) (g : Nat)
    (h : s.executed = true) :
    future.destroy { state := some u.heap.length }
        (promise.destroy (promise_common.weak (some u.heap.length))
          ({ heap := u.heap ++ [{ strong := 1, object := s, deleter := some g }],
             cancelled := u.cancelled } : World T))
      = { heap := u.heap ++ [{ strong := 0, object := s, deleter := some g }],
          cancelled := u.cancelled } := by
  rw [destroy_weak_alive _ _ _ (block_create_any u _) (le_refl 1)]
  simp only [abandon_executed s h, put_create, future.destroy, release_create, h]
  simp

theorem fulfil_drop_release_canceler {T : Type} (u : World T) (g : Nat) (v : T) :
    (promise.fulfil_drop_release (promise_common.create_canceler g u) v).cancelled
      = u.cancelled := by
  have hb := block_create u (some g)
  obtain ⟨t, hem, _⟩ := emplace_unset (shared_state.fresh T) v rfl
  have hex : t.executed = true := deliver_executed _ _ _ hem
  have hset := set_value_reachable _ (promise_common.weak (some u.heap.length)) _ _ v
    (Or.inr rfl) hb (le_refl 1)
  simp only [hem, put_create] at hset
  simp only [promise.fulfil_drop_release, get_future_canceler]
  simp only [promise_common.create_canceler, hset, drop_all_executed u t g hex]

theorem fail_drop_release_canceler {T : Type} (u : World T) (g : Nat) (e : exception_ptr) :
    (promise.fail_drop_release (promise_common.create_canceler g u) e : World T).cancelled
      = u.cancelled := by
  have hb := block_create u (some g)
  have hem : ∃ t, (shared_state.fresh T).set_exception e = Except.ok t := ⟨_, rfl⟩
  obtain ⟨t, hem⟩ := hem
  have hex : t.executed = true := deliver_executed _ _ _ hem
  have hset := set_exception_reachable _ (promise_common.weak (some u.heap.length)) _ _ e
    (Or.inr rfl) hb (le_refl 1)
  simp only [hem, put_create] at hset
  simp only [promise.fail_drop_release, get_future_canceler, promise.set_exception]
  simp only [promise_common.create_canceler, hset, drop_all_executed u t g hex]

theorem fulfil_drop_canceler {T : Type} (u : World T) (g : Nat) (v : T) :
    (promise.fulfil_drop (promise_common.create_canceler g u) v).cancelled = u.cancelled := by
  have hb := block_create u (some g)
  obtain ⟨t, hem, _⟩ := emplace_unset (shared_state.fresh T) v rfl
  have hex : t.executed = true := deliver_executed _ _ _ hem
  have hset := set_value_reachable _ (promise_common.shared (some u.heap.length)) _ _ v
    (Or.inl rfl) hb (le_refl 1)
  simp only [hem, put_create] at hset
  simp only [promise.fulfil_drop, promise_common.create_canceler, hset, destroy_shared,
    release_create, hex]
  simp

/-- C16: let `f` be the hook of the canceler constructor, stored in the deleter
of block `b`. When a strong reference to the state is dropped, `f` is called
exactly if that was the last one and the state has not executed its
continuations, and at most once. After the deallocation no call on the promise
and no destruction of it changes anything, so `f` is not called again. When the
promise was fulfilled by `set_value` / `set_exception`, or the broken promise
was delivered by abandonment, before the last strong reference went, `f` is not
called at all. -/
theorem canceler_iff_not_executed {T : Type} (w : World T) (r : Nat) (b : control_block T)
    (f : Nat) (hb : w.block r = some b) (hs : 1 ≤ b.strong) (hd : b.deleter = some f) :
    (w.release (some r)).cancelled
      = (if b.strong = 1 ∧ b.object.executed = false then w.cancelled ++ [f] else w.cancelled)
    ∧ (w.release (some r)).cancelled.count f ≤ w.cancelled.count f + 1
    ∧ (b.strong = 1 →
        (w.release (some r)).use_count (some r) = 0
        ∧ (∀ cs : List (call T),
            (promise.run cs (promise_common.weak (some r)) (w.release (some r))).2.2
              = w.release (some r))
        ∧ promise.destroy (promise_common.weak (some r)) (w.release (some r))
            = w.release (some r))
    ∧ (∀ (u : World T) (g : Nat) (v : T) (e : exception_ptr),
        (promise.fulfil_drop_release (promise_common.create_canceler g u) v).cancelled
          = u.cancelled
        ∧ (promise.fail_drop_release (promise_common.create_canceler g u) e : World T).cancelled
          = u.cancelled
        ∧ (promise.fulfil_drop (promise_common.create_canceler g u) v).cancelled = u.cancelled
        ∧ (promise.retrieve_drop_release (promise_common.create_canceler g u) : World T).cancelled
          = u.cancelled) := by
  have hc := release_cancelled w r b f hb hd
  have h1 : (w.release (some r)).cancelled
      = (if b.strong = 1 ∧ b.object.executed = false then w.cancelled ++ [f]
         else w.cancelled) := by
    rw [hc]
    by_cases hz : b.strong = 1
    · simp [hz]
    · have : ¬ (b.strong - 1 = 0) := by omega
      simp [hz, this]
  refine ⟨h1, ?_, ?_, ?_⟩
  · rw [h1]
    split <;> simp
  · intro hone
    have hu : (w.release (some r)).use_count (some r) = 0 := by
      rw [release_use_count w r b hb, hone]
    have hx : (w.release (some r)).expired (some r) = true := by
      simp [World.expired, hu]
    exact ⟨hu, fun cs => congrArg Prod.snd (run_expired cs _ _ hx).1,
      destroy_weak_expired _ _ hx⟩
  · intro u g v e
    refine ⟨fulfil_drop_release_canceler u g v, fail_drop_release_canceler u g e,
      fulfil_drop_canceler u g v, ?_⟩
    rw [retrieve_drop_release_canceler]

/-- Instance of C16: the future of a fulfilled promise with hook 7 is the last
owner and goes; the hook log stays empty. -/
theorem canceler_iff_not_executed_witness :
    (World.release
        ({ heap := [{ strong := 1,
                      object := { result := storage.value 5, continuations := [], invoked := [],
                                  executed := true },
                      deleter := some 7 }],
           cancelled := [] } : World Nat) (some 0)).cancelled = [] :=
  (canceler_iff_not_executed
    ({ heap := [{ strong := 1,
                  object := { result := storage.value 5, continuations := [], invoked := [],
                              executed := true },
                  deleter := some 7 }],
       cancelled := [] } : World Nat) 0
    { strong := 1,
      object := { result := storage.value 5, continuations := [], invoked := [],
                  executed := true },
      deleter := some 7 } 7 (by decide) (by decide) rfl).1

/-! ## A promise bound to an existing state -/

/-- C17: a promise built from a weak pointer is in alternative 2 from birth.
Its first `get_future()` throws `future_already_retrieved` whether or not the
pointer still locks. While the external state `b.object` is owned, `set_value`
and `set_exception` run that state's `emplace` / `set_exception` and destroying
the promise runs its `abandon()`; once the pointer is expired all three leave
the world as it is. -/
theorem weak_born_promise {T : Type} (w : World T) (r : Nat) (b : control_block T) (val : T)
    (error : exception_ptr) (hb : w.block r = some b) (hs : 1 ≤ b.strong) :
    (∀ (u : World T) (state : weak_ptr),
        promise_common.create_weak state u = (promise_common.weak state, u)
        ∧ promise.get_future (promise_common.create_weak state u).1
            (promise_common.create_weak state u).2
          = (Except.error future_errc.future_already_retrieved, promise_common.weak state, u))
    ∧ promise.set_value (promise_common.create_weak (some r) w).1 val
          (promise_common.create_weak (some r) w).2
      = (match b.object.emplace val with
        | Except.error e => (Except.error e, promise_common.weak (some r), w)
        | Except.ok s =>
            (Except.ok (), promise_common.weak (some r), w.put r { b with object := s }))
    ∧ promise.set_exception (promise_common.create_weak (some r) w).1 error
          (promise_common.create_weak (some r) w).2
      = (match b.object.set_exception error with
        | Except.error e => (Except.error e, promise_common.weak (some r), w)
        | Except.ok s =>
            (Except.ok (), promise_common.weak (some r), w.put r { b with object := s }))
    ∧ promise.destroy (promise_common.create_weak (some r) w).1
          (promise_common.create_weak (some r) w).2
      = w.put r { b with object := b.object.abandon }
    ∧ (∀ (u : World T) (gone : weak_ptr), u.expired gone = true →
        promise.set_value (promise_common.create_weak gone u).1 val
            (promise_common.create_weak gone u).2
          = (Except.ok (), promise_common.weak gone, u)
        ∧ promise.set_exception (promise_common.create_weak gone u).1 error
            (promise_common.create_weak gone u).2
          = (Except.ok (), promise_common.weak gone, u)
        ∧ promise.destroy (promise_common.create_weak gone u).1
            (promise_common.create_weak gone u).2 = u) :=
  ⟨fun u state => ⟨rfl, get_future_weak u state⟩,
   set_value_reachable w _ r b val (Or.inr rfl) hb hs,
   set_exception_reachable w _ r b error (Or.inr rfl) hb hs,
   destroy_weak_alive w r b hb hs,
   fun u gone h => ⟨set_value_expired u gone val h, set_exception_expired u gone error h,
     destroy_weak_expired u gone h⟩⟩

/-- Instance of C17: a promise bound to a live external state delivers the
value 3 to it. -/
theorem weak_born_promise_witness :
    promise.set_value (promise_common.create_weak (some 0)
        ({ heap := [{ strong := 1, object := shared_state.fresh Nat, deleter := none }],
           cancelled := [] } : World Nat)).1 3
        ({ heap := [{ strong := 1, object := shared_state.fresh Nat, deleter := none }],
           cancelled := [] } : World Nat)
      = (Except.ok (), promise_common.weak (some 0),
         { heap := [{ strong := 1,
                      object := { result := storage.value 3, continuations := [], invoked := [],
                                  executed := true },
                      deleter := none }],
           cancelled := [] }) :=
  (weak_born_promise
    ({ heap := [{ strong := 1, object := shared_state.fresh Nat, deleter := none }],
       cancelled := [] } : World Nat) 0
    { strong := 1, object := shared_state.fresh Nat, deleter := none } 3
    (exception_ptr.user 0) (by decide) (by decide)).2.1

/-! ## Frame -/

theorem use_count_put_object {T : Type} (w : World T) (r : Nat) (b : control_block T)
    (s : shared_state T) (q : Option Nat) (hb : w.block r = some b) :
    (w.put r { b with object := s }).use_count q = w.use_count q := by
  cases q with
  | none => rfl
  | some a =>
    unfold World.block at hb
    by_cases ha : r = a
    · subst ha
      have hlt : r < w.heap.length := (List.getElem?_eq_some.mp hb).1
      simp [World.use_count, World.block, World.put, List.getElem?_set_self hlt, hb]
    · simp [World.use_count, World.block, World.put, List.getElem?_set_ne ha]

theorem alive_block {T : Type} (w : World T) (val : weak_ptr) (h : w.expired val = false) :
    ∃ r b, val = some r ∧ w.block r = some b ∧ 1 ≤ b.strong := by
  apply owned_block
  have : ¬ (w.use_count val = 0) := by simpa [World.expired] using h
  omega

/-- The `abandon()` of a handle changes no strong count. -/
theorem abandon_use_count {T : Type} (p : promise_common) (w : World T) (q : Option Nat) :
    (p.abandon w).use_count q = w.use_count q := by
  cases p with
  | monostate => rfl
  | shared val => rfl
  | weak val =>
    cases hx : w.expired val with
    | true => simp [promise_common.abandon, lock_expired w val hx]
    | false =>
      obtain ⟨r, b, rfl, hb, hs⟩ := alive_block w val hx
      rw [abandon_weak_alive w r b hb hs]
      exact use_count_put_object w r b _ q hb

/-- C18: frame. `set_value`, `set_exception` and `is_awaiten` return the handle
they were called on, whether they return normally or throw. `abandon()`, whose
visitors only read the handle, changes no strong count, so the handle answers
`is_awaiten` as before. `get_future()` returns the same handle unless it
succeeds; when it succeeds the handle goes from alternative 1 to alternative 2
and still points to the same state. -/
theorem handle_frame {T : Type} (p : promise_common) (w : World T) (val : T)
    (error : exception_ptr) (q : Option Nat) :
    (promise.set_value p val w).2.1 = p
    ∧ (promise.set_exception p error w).2.1 = p
    ∧ (promise.step call.is_awaiten p w).2.1 = p
    ∧ (p.abandon w).use_count q = w.use_count q
    ∧ promise.is_awaiten p (p.abandon w) = promise.is_awaiten p w
    ∧ ((promise.get_future p w).2.1 = p
      ∨ (p.state = 1 ∧ (promise.get_future p w).2.1.state = 2
          ∧ (promise.get_future p w).2.1.pointer = p.pointer
          ∧ ∃ F, (promise.get_future p w).1 = Except.ok F)) := by
  refine ⟨set_value_handle p val w, set_exception_handle p error w,
    congrArg Prod.fst (step_is_awaiten w p).1, abandon_use_count p w q, ?_,
    get_future_handle p w⟩
  cases p with
  | monostate => rfl
  | shared v => rfl
  | weak v =>
    simp [promise.is_awaiten, promise_common.is_awaiten, World.expired,
      abandon_use_count (promise_common.weak v) w v]

end portable_concurrency
